import Mathlib

/-!
Shallow embedding of the optimistic-update reconciliation logic of the
MetaGPT-Pro sprint board (frontend/src/app/project/[id]/board/page.tsx)
and of the bounded toast queue (frontend/src/components/ui/Toast/Toast.tsx).

Columns, tasks, the board shape, `findColumnForTask`, the optimistic part of
`handleDragEnd`, the rollback on dispatch failure, the seed-from-fetch step,
and the toast add/remove operations are translated directly from the source.
-/

/-- The six workflow columns (`ColumnId` union type in the source). -/
inductive ColumnId where
  | todo
  | in_progress
  | review
  | testing
  | done
  | blocked
deriving DecidableEq

/-- The string value each `ColumnId` variant stands for in TypeScript. -/
def ColumnId.str : ColumnId → String
  | .todo => "todo"
  | .in_progress => "in_progress"
  | .review => "review"
  | .testing => "testing"
  | .done => "done"
  | .blocked => "blocked"

/-- Task priority (`'p0' | 'p1' | 'p2' | 'p3'` in the source types). -/
inductive Priority where
  | p0
  | p1
  | p2
  | p3
deriving DecidableEq

/-- A board task, following the `Task` interface of the frontend types
module (id, title, description?, status, storyPoints, assignee?, epic?,
priority, isBug?, createdAt, updatedAt). -/
structure BoardTask where
  id : String
  title : String
  description : Option String
  status : ColumnId
  storyPoints : Nat
  assignee : Option String
  epic : Option String
  priority : Priority
  isBug : Option Bool
  createdAt : String
  updatedAt : String
deriving DecidableEq

/-- The board: one ordered task list per column (`BoardData` /
`KanbanBoard` in the source, keys in declaration order). -/
structure BoardData where
  todo : List BoardTask
  in_progress : List BoardTask
  review : List BoardTask
  testing : List BoardTask
  done : List BoardTask
  blocked : List BoardTask
deriving DecidableEq

/-- Read one column of the board (`tasks[columnId]`). -/
def getCol (b : BoardData) : ColumnId → List BoardTask
  | .todo => b.todo
  | .in_progress => b.in_progress
  | .review => b.review
  | .testing => b.testing
  | .done => b.done
  | .blocked => b.blocked

/-- Replace one column of the board (computed-key spread
`\x7b ...prev, [columnId]: l \x7d`). -/
def setCol (b : BoardData) (c : ColumnId) (l : List BoardTask) : BoardData :=
  match c with
  | .todo => { b with todo := l }
  | .in_progress => { b with in_progress := l }
  | .review => { b with review := l }
  | .testing => { b with testing := l }
  | .done => { b with done := l }
  | .blocked => { b with blocked := l }

/-- A droppable column with its display label; the `columns` array of the
board page lists five of the six column ids (no `blocked`). -/
structure Column where
  id : ColumnId
  label : String
deriving DecidableEq

/-- The `columns` array of the board page. -/
def columns : List Column :=
  [⟨.todo, "To Do"⟩, ⟨.in_progress, "In Progress"⟩, ⟨.review, "Review"⟩,
   ⟨.testing, "Testing"⟩, ⟨.done, "Done"⟩]

/-- Key order of `Object.entries(tasks)` over the board object. -/
def columnOrder : List ColumnId :=
  [.todo, .in_progress, .review, .testing, .done, .blocked]

/-- `findColumnForTask`: first column whose task list contains the id. -/
def findColumnForTask (tasks : BoardData) (taskId : String) : Option ColumnId :=
  columnOrder.find? (fun c => (getCol tasks c).any (fun t => t.id == taskId))

/-- A drag-end event: the dragged task id (`active.id`) and the drop
target id (`over?.id`), absent when the drag ended over nothing. -/
structure DragEndEvent where
  activeId : String
  over : Option String

/-- A user-visible toast emitted by the handler (`success` / `showError`). -/
inductive Notice where
  | success (msg : String)
  | failure (msg : String)
deriving DecidableEq

/-- What the handler captures for one in-flight move: the arguments of the
`moveTaskMutation.mutate` call plus the pre-move `task` value used by the
rollback closure. -/
structure PendingMutation where
  taskId : String
  sourceColumn : ColumnId
  overColumn : ColumnId
  snapshot : BoardTask
deriving DecidableEq

/-- Result of the synchronous part of `handleDragEnd`: the board after the
optimistic update, the dispatch issued (if any), and the notices shown. -/
structure DragOutcome where
  tasks : BoardData
  dispatch : Option PendingMutation
  notices : List Notice
deriving DecidableEq

/-- The optimistic update of `handleDragEnd`: drop the task from the source
column, append it to the destination with `status` set to the destination. -/
def applyMove (tasks : BoardData) (activeId : String)
    (sourceColumn overColumn : ColumnId) (task : BoardTask) : BoardData :=
  setCol
    (setCol tasks sourceColumn
      ((getCol tasks sourceColumn).filter (fun t => !(t.id == activeId))))
    overColumn
    (getCol tasks overColumn ++ [{ task with status := overColumn }])

/-- The synchronous body of `handleDragEnd` up to the `await`: guard
clauses, optimistic update, success toast, and the dispatch arguments. -/
def handleDragEndOptimistic (tasks : BoardData) (ev : DragEndEvent) : DragOutcome :=
  match ev.over with
  | none => ⟨tasks, none, []⟩
  | some overStr =>
    match findColumnForTask tasks ev.activeId,
          columns.find? (fun c => c.id.str == overStr) with
    | some sourceColumn, some col =>
      if sourceColumn.str == overStr then ⟨tasks, none, []⟩
      else
        match (getCol tasks sourceColumn).find? (fun t => t.id == ev.activeId) with
        | none => ⟨tasks, none, []⟩
        | some task =>
          ⟨applyMove tasks ev.activeId sourceColumn col.id task,
           some ⟨ev.activeId, sourceColumn, col.id, task⟩,
           [Notice.success ("Moved task to " ++ col.label)]⟩
    | _, _ => ⟨tasks, none, []⟩

/-- The rollback closure run when `mutate` resolves falsy: drop the task id
from the destination column and append the captured snapshot back onto the
source column of the then-current board. -/
def revertMove (tasks : BoardData) (p : PendingMutation) : BoardData :=
  setCol
    (setCol tasks p.overColumn
      ((getCol tasks p.overColumn).filter (fun t => !(t.id == p.taskId))))
    p.sourceColumn
    (getCol tasks p.sourceColumn ++ [p.snapshot])

/-- `handleDragEnd` end to end for one event whose dispatch (when one is
issued) resolves with the given boolean result and no other mutation
interleaves: success keeps the optimistic state, failure rolls back and
shows the error toast. -/
def handleDragEnd (tasks : BoardData) (ev : DragEndEvent) (result : Bool) :
    BoardData × List Notice :=
  let o := handleDragEndOptimistic tasks ev
  match o.dispatch with
  | none => (o.tasks, o.notices)
  | some p =>
    if result then (o.tasks, o.notices)
    else (revertMove o.tasks p,
          o.notices ++ [Notice.failure "Failed to move task. Please try again."])

/-- The seed step: the `useEffect` syncing fetched `boardData` into local
state replaces the whole mirror (`setTasks(boardData)`). -/
def seed (collection : BoardData) (_mirror : BoardData) : BoardData :=
  collection

/-- Toast variant (`ToastType` in the source). -/
inductive ToastType where
  | success
  | error
  | warning
  | info
deriving DecidableEq

/-- A toast entry; the `action.onClick` callback is code, so only the
action label is carried here. -/
structure ToastItem where
  id : String
  type : ToastType
  title : Option String
  message : String
  duration : Option Nat
  actionLabel : Option String
  dismissible : Option Bool
deriving DecidableEq

/-- `removeToast`: drop the toast with the given id. -/
def removeToast (toasts : List ToastItem) (id : String) : List ToastItem :=
  toasts.filter (fun t => !(t.id == id))

/-- JavaScript `arr.slice(-n)` for a nonnegative `n`: the last `n` elements,
except that `slice(-0)` is `slice(0)`, the whole array. -/
def jsSliceNeg (l : List α) (n : Nat) : List α :=
  if n = 0 then l else l.drop (l.length - n)

/-- `addToast` state update: append the new toast, then
`newToasts.slice(-maxToasts)`. -/
def addToast (maxToasts : Nat) (toasts : List ToastItem) (t : ToastItem) :
    List ToastItem :=
  jsSliceNeg (toasts ++ [t]) maxToasts

/-- One call against the toast state: an `addToast` or a `removeToast`. -/
inductive ToastOp where
  | add (t : ToastItem)
  | remove (id : String)

/-- Apply one toast operation to the current toast list. -/
def toastStep (maxToasts : Nat) (s : List ToastItem) : ToastOp → List ToastItem
  | .add t => addToast maxToasts s t
  | .remove id => removeToast s id

/-- Run a sequence of toast operations from the initial empty list. -/
def runToasts (maxToasts : Nat) (ops : List ToastOp) : List ToastItem :=
  ops.foldl (toastStep maxToasts) []

/-- Multiset of task ids in one column list. -/
def taskIds (l : List BoardTask) : Multiset String :=
  ↑(l.map (fun t => t.id))

/-- Total story points of one column list. -/
def taskPoints (l : List BoardTask) : Nat :=
  (l.map (fun t => t.storyPoints)).sum

/-- Multiset of task ids over all six partitions of the board. -/
def idBag (b : BoardData) : Multiset String :=
  taskIds b.todo + taskIds b.in_progress + taskIds b.review +
    taskIds b.testing + taskIds b.done + taskIds b.blocked

/-- Total story points over all six partitions (the board page computes
this as `Object.values(tasks).flat().reduce(..)` for the stats header). -/
def pointsSum (b : BoardData) : Nat :=
  taskPoints b.todo + taskPoints b.in_progress + taskPoints b.review +
    taskPoints b.testing + taskPoints b.done + taskPoints b.blocked

/-- A concrete task sitting in the todo column. -/
def exTask1 : BoardTask :=
  ⟨"T1", "Set up auth flow", none, .todo, 3, some "alice", none, .p1, none,
   "2025-01-01", "2025-01-02"⟩

/-- A second concrete task sitting in the todo column. -/
def exTask2 : BoardTask :=
  ⟨"T2", "Fix cart bug", none, .todo, 5, none, none, .p2, some true,
   "2025-01-03", "2025-01-04"⟩

/-- A board whose todo column holds exactly one task. -/
def exBoard1 : BoardData := ⟨[exTask1], [], [], [], [], []⟩

/-- A board whose todo column holds two tasks, exTask1 first. -/
def exBoard2 : BoardData := ⟨[exTask1, exTask2], [], [], [], [], []⟩

/-- The empty board. -/
def exEmpty : BoardData := ⟨[], [], [], [], [], []⟩

/-- A concrete toast entry. -/
def exToast : ToastItem := ⟨"toast-1", .success, none, "Moved task to Done", none, none, none⟩

/-- Reading back the column just written. -/
theorem getCol_setCol_same (b : BoardData) (c : ColumnId) (l : List BoardTask) :
    getCol (setCol b c l) c = l := by
  cases c <;> rfl

/-- Reading a column other than the one written is unchanged. -/
theorem getCol_setCol_ne (b : BoardData) (c c' : ColumnId) (l : List BoardTask)
    (h : c' ≠ c) : getCol (setCol b c l) c' = getCol b c' := by
  cases c <;> cases c' <;> simp_all [getCol, setCol]

/-- When every guard of `handleDragEnd` passes, the synchronous part applies
the optimistic move, records the dispatch, and emits the success toast. -/
theorem handleDragEndOptimistic_valid (tasks : BoardData) (aid overStr : String)
    (src : ColumnId) (col : Column) (task : BoardTask)
    (hsrc : findColumnForTask tasks aid = some src)
    (hcol : columns.find? (fun c => c.id.str == overStr) = some col)
    (hne : (src.str == overStr) = false)
    (htask : (getCol tasks src).find? (fun t => t.id == aid) = some task) :
    handleDragEndOptimistic tasks ⟨aid, some overStr⟩ =
      ⟨applyMove tasks aid src col.id task, some ⟨aid, src, col.id, task⟩,
       [Notice.success ("Moved task to " ++ col.label)]⟩ := by
  unfold handleDragEndOptimistic
  simp [hsrc, hcol, hne, htask]

/-- When `findColumnForTask` finds nothing, the handler is a complete no-op. -/
theorem handleDragEndOptimistic_noSource (tasks : BoardData) (ev : DragEndEvent)
    (h : findColumnForTask tasks ev.activeId = none) :
    handleDragEndOptimistic tasks ev = ⟨tasks, none, []⟩ := by
  obtain ⟨aid, ov⟩ := ev
  cases ov with
  | none => rfl
  | some overStr =>
    unfold handleDragEndOptimistic
    simp only at h ⊢
    rw [h]

/-- When the drop target is not one of the five droppable columns, the
handler is a complete no-op. -/
theorem handleDragEndOptimistic_badTarget (tasks : BoardData) (aid overStr : String)
    (h : columns.find? (fun c => c.id.str == overStr) = none) :
    handleDragEndOptimistic tasks ⟨aid, some overStr⟩ = ⟨tasks, none, []⟩ := by
  unfold handleDragEndOptimistic
  cases hf : findColumnForTask tasks aid <;> simp [h, hf]

/-- A successful lookup in `columns` pins the string of the found column. -/
theorem col_id_eq_of_find (overStr : String) (col : Column)
    (hcol : columns.find? (fun c => c.id.str == overStr) = some col) :
    col.id.str = overStr := by
  have := List.find?_some hcol
  simpa using this

/-- If the source column string differs from the target string, the source
column differs from the found destination column. -/
theorem src_ne_dst (overStr : String) (src : ColumnId) (col : Column)
    (hcol : columns.find? (fun c => c.id.str == overStr) = some col)
    (hne : (src.str == overStr) = false) : src ≠ col.id := by
  intro h
  rw [h, col_id_eq_of_find overStr col hcol] at hne
  simp at hne

/-- `find?` on a list split around the unique task with the sought id. -/
theorem find?_decomp (aid : String) (task : BoardTask) (l1 l2 : List BoardTask)
    (hid : task.id = aid) (hfree : ∀ t ∈ l1, t.id ≠ aid) :
    (l1 ++ task :: l2).find? (fun t => t.id == aid) = some task := by
  rw [List.find?_append]
  have h1 : l1.find? (fun t => t.id == aid) = none :=
    List.find?_eq_none.mpr (fun t ht => by simpa using hfree t ht)
  rw [h1]
  simp [List.find?_cons, hid]

/-- Filtering out the sought id removes exactly the middle task when the
surrounding lists are free of that id. -/
theorem filter_decomp (aid : String) (task : BoardTask) (l1 l2 : List BoardTask)
    (hid : task.id = aid)
    (h1 : ∀ t ∈ l1, t.id ≠ aid) (h2 : ∀ t ∈ l2, t.id ≠ aid) :
    (l1 ++ task :: l2).filter (fun t => !(t.id == aid)) = l1 ++ l2 := by
  rw [List.filter_append]
  congr 1
  · exact List.filter_eq_self.mpr (fun t ht => by simpa using h1 t ht)
  · rw [List.filter_cons]
    simp [hid]
    exact h2

/-- The full failure path of `handleDragEnd`: optimistic apply, success
toast, rollback from the captured snapshot, and the failure toast. -/
theorem handleDragEnd_failure (tasks : BoardData) (aid overStr : String)
    (src : ColumnId) (col : Column) (task : BoardTask)
    (hsrc : findColumnForTask tasks aid = some src)
    (hcol : columns.find? (fun c => c.id.str == overStr) = some col)
    (hne : (src.str == overStr) = false)
    (htask : (getCol tasks src).find? (fun t => t.id == aid) = some task) :
    handleDragEnd tasks ⟨aid, some overStr⟩ false =
      (revertMove (applyMove tasks aid src col.id task) ⟨aid, src, col.id, task⟩,
       [Notice.success ("Moved task to " ++ col.label),
        Notice.failure "Failed to move task. Please try again."]) := by
  unfold handleDragEnd
  rw [handleDragEndOptimistic_valid tasks aid overStr src col task hsrc hcol hne htask]
  rfl

/-- Appending splits the id multiset of a column list. -/
theorem taskIds_append (l m : List BoardTask) : taskIds (l ++ m) = taskIds l + taskIds m := by
  simp [taskIds]

/-- Cons prepends one id to the id multiset of a column list. -/
theorem taskIds_cons (t : BoardTask) (l : List BoardTask) :
    taskIds (t :: l) = {t.id} + taskIds l := by
  simp [taskIds, Multiset.singleton_add]

/-- The empty column list carries no ids. -/
theorem taskIds_nil : taskIds [] = 0 := rfl

/-- Appending splits the story-point sum of a column list. -/
theorem taskPoints_append (l m : List BoardTask) :
    taskPoints (l ++ m) = taskPoints l + taskPoints m := by
  simp [taskPoints]

/-- Cons adds one task's points to the story-point sum of a column list. -/
theorem taskPoints_cons (t : BoardTask) (l : List BoardTask) :
    taskPoints (t :: l) = t.storyPoints + taskPoints l := by
  simp [taskPoints]

/-- The empty column list carries no points. -/
theorem taskPoints_nil : taskPoints [] = 0 := rfl

/-- Removing one task from the middle of one column and appending a task
with the same id to a different column preserves the board's id multiset. -/
theorem conservation_bag (b : BoardData) (src dst : ColumnId) (h : src ≠ dst)
    (l1 l2 : List BoardTask) (task moved : BoardTask)
    (hdecomp : getCol b src = l1 ++ task :: l2)
    (hmid : moved.id = task.id) :
    idBag (setCol (setCol b src (l1 ++ l2)) dst (getCol b dst ++ [moved])) = idBag b := by
  cases src <;> cases dst <;> (try exact absurd rfl h) <;>
    (simp only [getCol] at hdecomp) <;>
    (simp [idBag, setCol, getCol, hdecomp, taskIds_append, taskIds_cons, taskIds_nil, hmid]) <;>
    (simp only [← Multiset.singleton_add]) <;> abel

/-- Removing one task from the middle of one column and appending a task
with the same story points to a different column preserves the board's
story-point total. -/
theorem conservation_pts (b : BoardData) (src dst : ColumnId) (h : src ≠ dst)
    (l1 l2 : List BoardTask) (task moved : BoardTask)
    (hdecomp : getCol b src = l1 ++ task :: l2)
    (hmp : moved.storyPoints = task.storyPoints) :
    pointsSum (setCol (setCol b src (l1 ++ l2)) dst (getCol b dst ++ [moved])) = pointsSum b := by
  cases src <;> cases dst <;> (try exact absurd rfl h) <;>
    (simp only [getCol] at hdecomp) <;>
    (simp [pointsSum, setCol, getCol, hdecomp, taskPoints_append, taskPoints_cons, taskPoints_nil, hmp]) <;>
    omega

/-- One toast operation keeps the list within the bound when the bound is
at least one. -/
theorem toastStep_length (m : Nat) (hm : 1 ≤ m) (s : List ToastItem) (op : ToastOp)
    (hs : s.length ≤ m) : (toastStep m s op).length ≤ m := by
  cases op with
  | add t =>
    show (addToast m s t).length ≤ m
    unfold addToast jsSliceNeg
    rw [if_neg (by omega)]
    simp [List.length_drop]
    omega
  | remove i =>
    show (removeToast s i).length ≤ m
    exact le_trans (List.length_filter_le _ _) hs

/-- Folding toast operations from any in-bound state stays in bound. -/
theorem runToasts_aux (m : Nat) (hm : 1 ≤ m) (ops : List ToastOp) (s : List ToastItem)
    (hs : s.length ≤ m) : (ops.foldl (toastStep m) s).length ≤ m := by
  induction ops generalizing s with
  | nil => exact hs
  | cons op ops ih => exact ih _ (toastStep_length m hm s op hs)

/-- C1 counterexample: on the board with todo = [exTask1, exTask2], the move
of exTask1 to done is optimistically applied and its dispatch fails, yet the
mirror does not return to its exact pre-move state: the rollback appends the
snapshot at the end of the todo column, giving [exTask2, exTask1] instead of
the pre-move [exTask1, exTask2]. -/
theorem C1_counterexample :
    (handleDragEndOptimistic exBoard2 ⟨"T1", some "done"⟩).dispatch.isSome = true ∧
    (handleDragEnd exBoard2 ⟨"T1", some "done"⟩ false).1 ≠ exBoard2 ∧
    (handleDragEnd exBoard2 ⟨"T1", some "done"⟩ false).1.todo = [exTask2, exTask1] ∧
    exBoard2.todo = [exTask1, exTask2] := by decide

/-- C1 (amended): for every move optimistically applied by handleDragEnd
whose dispatch resolves with failure, the item returns to the source
partition with its exact pre-move field values, but appended at the end of
that partition (its pre-move position is preserved only when it was last,
as in the single-item scenario); every other partition, the destination
included, returns to exactly its pre-move contents, and the failure toast
follows the optimistic success toast. -/
theorem C1_revert_on_failure_amended (tasks : BoardData) (aid overStr : String)
    (src : ColumnId) (col : Column) (task : BoardTask) (l1 l2 : List BoardTask)
    (hsrc : findColumnForTask tasks aid = some src)
    (hcol : columns.find? (fun c => c.id.str == overStr) = some col)
    (hne : (src.str == overStr) = false)
    (hdecomp : getCol tasks src = l1 ++ task :: l2)
    (hid : task.id = aid)
    (hfree1 : ∀ t ∈ l1, t.id ≠ aid) (hfree2 : ∀ t ∈ l2, t.id ≠ aid)
    (hfreeDst : ∀ t ∈ getCol tasks col.id, t.id ≠ aid) :
    getCol (handleDragEnd tasks ⟨aid, some overStr⟩ false).1 src = (l1 ++ l2) ++ [task] ∧
    (∀ c, c ≠ src → getCol (handleDragEnd tasks ⟨aid, some overStr⟩ false).1 c = getCol tasks c) ∧
    (handleDragEnd tasks ⟨aid, some overStr⟩ false).2 =
      [Notice.success ("Moved task to " ++ col.label),
       Notice.failure "Failed to move task. Please try again."] := by
  have htask : (getCol tasks src).find? (fun t => t.id == aid) = some task := by
    rw [hdecomp]; exact find?_decomp aid task l1 l2 hid hfree1
  have hfail := handleDragEnd_failure tasks aid overStr src col task hsrc hcol hne htask
  have hsd : src ≠ col.id := src_ne_dst overStr src col hcol hne
  have hS'src : getCol (applyMove tasks aid src col.id task) src = l1 ++ l2 := by
    unfold applyMove
    rw [getCol_setCol_ne _ _ _ _ hsd, getCol_setCol_same, hdecomp]
    exact filter_decomp aid task l1 l2 hid hfree1 hfree2
  have hS'dst : getCol (applyMove tasks aid src col.id task) col.id
      = getCol tasks col.id ++ [{ task with status := col.id }] := by
    unfold applyMove; rw [getCol_setCol_same]
  have hDfil : (getCol (applyMove tasks aid src col.id task) col.id).filter
      (fun t => !(t.id == aid)) = getCol tasks col.id := by
    rw [hS'dst, List.filter_append]
    have h1 : (getCol tasks col.id).filter (fun t => !(t.id == aid)) = getCol tasks col.id :=
      List.filter_eq_self.mpr (fun t ht => by simpa using hfreeDst t ht)
    rw [h1]
    simp [hid]
  rw [hfail]
  refine ⟨?_, ?_, rfl⟩
  · show getCol (revertMove _ _) src = _
    unfold revertMove
    rw [getCol_setCol_same, hS'src]
  · intro c hc
    show getCol (revertMove _ _) c = _
    unfold revertMove
    rw [getCol_setCol_ne _ _ _ _ hc]
    by_cases hcd : c = col.id
    · subst hcd
      rw [getCol_setCol_same]
      exact hDfil
    · rw [getCol_setCol_ne _ _ _ _ hcd]
      unfold applyMove
      rw [getCol_setCol_ne _ _ _ _ hcd, getCol_setCol_ne _ _ _ _ hc]

/-- C1 witness: the single-item scenario of the amended claim, where the
revert restores the pre-move mirror exactly. -/
theorem C1_revert_on_failure_amended_witness :
    getCol (handleDragEnd exBoard1 ⟨"T1", some "done"⟩ false).1 ColumnId.todo =
      (([] : List BoardTask) ++ []) ++ [exTask1] ∧
    (∀ c, c ≠ ColumnId.todo →
      getCol (handleDragEnd exBoard1 ⟨"T1", some "done"⟩ false).1 c = getCol exBoard1 c) ∧
    (handleDragEnd exBoard1 ⟨"T1", some "done"⟩ false).2 =
      [Notice.success ("Moved task to " ++ "Done"),
       Notice.failure "Failed to move task. Please try again."] :=
  C1_revert_on_failure_amended exBoard1 "T1" "done" .todo ⟨.done, "Done"⟩ exTask1 [] []
    (by decide) (by decide) (by decide) (by decide) (by decide) (by decide) (by decide) (by decide)

/-- C2: for every valid move (source column found, destination accepted,
source differs from destination, task found), the optimistic part of
handleDragEnd issues the dispatch and already has the moved item (with its
status set to the destination) present in the destination partition and
absent from the source partition, before the dispatch result is known. -/
theorem C2_optimistic_visibility (tasks : BoardData) (aid overStr : String)
    (src : ColumnId) (col : Column) (task : BoardTask)
    (hsrc : findColumnForTask tasks aid = some src)
    (hcol : columns.find? (fun c => c.id.str == overStr) = some col)
    (hne : (src.str == overStr) = false)
    (htask : (getCol tasks src).find? (fun t => t.id == aid) = some task) :
    let o := handleDragEndOptimistic tasks ⟨aid, some overStr⟩
    o.dispatch = some ⟨aid, src, col.id, task⟩ ∧
    { task with status := col.id } ∈ getCol o.tasks col.id ∧
    ∀ t ∈ getCol o.tasks src, t.id ≠ aid := by
  intro o
  have ho : o = ⟨applyMove tasks aid src col.id task, some ⟨aid, src, col.id, task⟩,
      [Notice.success ("Moved task to " ++ col.label)]⟩ :=
    handleDragEndOptimistic_valid tasks aid overStr src col task hsrc hcol hne htask
  have hsd : src ≠ col.id := src_ne_dst overStr src col hcol hne
  refine ⟨by rw [ho], ?_, ?_⟩
  · rw [ho]
    show _ ∈ getCol (applyMove tasks aid src col.id task) col.id
    unfold applyMove
    rw [getCol_setCol_same]
    exact List.mem_append_right _ (List.mem_singleton.mpr rfl)
  · rw [ho]
    intro t ht
    unfold applyMove at ht
    rw [getCol_setCol_ne _ _ _ _ hsd, getCol_setCol_same] at ht
    have := List.of_mem_filter ht
    simpa using this

/-- C2 witness: the single-item board, moving its task from todo to done. -/
theorem C2_optimistic_visibility_witness :
    (let o := handleDragEndOptimistic exBoard1 ⟨"T1", some "done"⟩
     o.dispatch = some ⟨"T1", ColumnId.todo, ColumnId.done, exTask1⟩ ∧
     { exTask1 with status := ColumnId.done } ∈ getCol o.tasks ColumnId.done ∧
     ∀ t ∈ getCol o.tasks ColumnId.todo, t.id ≠ "T1") :=
  C2_optimistic_visibility exBoard1 "T1" "done" .todo ⟨.done, "Done"⟩ exTask1
    (by decide) (by decide) (by decide) (by decide)

/-- C3: when the dragged id is in no column of the mirror, or not found in
the located source column, handleDragEnd leaves the mirror unchanged,
issues no dispatch, and shows no notice, whatever a dispatch would have
resolved to. -/
theorem C3_noop_on_missing_source (tasks : BoardData) (ev : DragEndEvent)
    (h : findColumnForTask tasks ev.activeId = none ∨
      ∃ c, findColumnForTask tasks ev.activeId = some c ∧
        (getCol tasks c).find? (fun t => t.id == ev.activeId) = none) :
    handleDragEndOptimistic tasks ev = ⟨tasks, none, []⟩ ∧
    ∀ result, handleDragEnd tasks ev result = (tasks, []) := by
  have hmain : handleDragEndOptimistic tasks ev = ⟨tasks, none, []⟩ := by
    rcases h with h | ⟨c, hc, hfind⟩
    · exact handleDragEndOptimistic_noSource tasks ev h
    · exfalso
      have hany := List.find?_some hc
      rw [List.any_eq_true] at hany
      obtain ⟨t, ht, hid⟩ := hany
      exact (List.find?_eq_none.mp hfind t ht) hid
  refine ⟨hmain, fun result => ?_⟩
  unfold handleDragEnd
  rw [hmain]

/-- C3 witness: dragging an id over the empty board. -/
theorem C3_noop_on_missing_source_witness :
    handleDragEndOptimistic exEmpty ⟨"T9", some "done"⟩ = ⟨exEmpty, none, []⟩ ∧
    ∀ result, handleDragEnd exEmpty ⟨"T9", some "done"⟩ result = (exEmpty, []) :=
  C3_noop_on_missing_source exEmpty ⟨"T9", some "done"⟩ (Or.inl (by decide))

/-- C4: when the drop target string equals the source column, handleDragEnd
issues no dispatch, emits no notice, and leaves the mirror unchanged. -/
theorem C4_same_partition_noop (tasks : BoardData) (aid overStr : String)
    (src : ColumnId)
    (hsrc : findColumnForTask tasks aid = some src)
    (hsame : src.str = overStr) :
    handleDragEndOptimistic tasks ⟨aid, some overStr⟩ = ⟨tasks, none, []⟩ ∧
    ∀ result, handleDragEnd tasks ⟨aid, some overStr⟩ result = (tasks, []) := by
  have hmain : handleDragEndOptimistic tasks ⟨aid, some overStr⟩ = ⟨tasks, none, []⟩ := by
    unfold handleDragEndOptimistic
    cases hc : columns.find? (fun c => c.id.str == overStr) with
    | none => simp [hsrc, hc]
    | some col => simp [hsrc, hc, hsame]
  refine ⟨hmain, fun result => ?_⟩
  unfold handleDragEnd
  rw [hmain]

/-- C4 witness: dropping the todo task back onto the todo column. -/
theorem C4_same_partition_noop_witness :
    handleDragEndOptimistic exBoard1 ⟨"T1", some "todo"⟩ = ⟨exBoard1, none, []⟩ ∧
    ∀ result, handleDragEnd exBoard1 ⟨"T1", some "todo"⟩ result = (exBoard1, []) :=
  C4_same_partition_noop exBoard1 "T1" "todo" .todo (by decide) (by decide)

/-- C5: from todo = [exTask1, exTask2], moving exTask1 to done (dispatch
pending) and then exTask2 to done, with exTask2's dispatch succeeding (no
action) and exTask1's dispatch then failing (rollback from its own captured
snapshot against the then-current mirror), yields the final mirror
todo = [exTask1], done = [exTask2 moved to done]: each mutation reconciled
by its own snapshot, irrespective of request order. -/
theorem C5_independent_reconciliation :
    (handleDragEndOptimistic exBoard2 ⟨"T1", some "done"⟩).dispatch =
      some ⟨"T1", .todo, .done, exTask1⟩ ∧
    (handleDragEndOptimistic (handleDragEndOptimistic exBoard2 ⟨"T1", some "done"⟩).tasks
        ⟨"T2", some "done"⟩).dispatch = some ⟨"T2", .todo, .done, exTask2⟩ ∧
    revertMove
      (handleDragEndOptimistic (handleDragEndOptimistic exBoard2 ⟨"T1", some "done"⟩).tasks
        ⟨"T2", some "done"⟩).tasks
      ⟨"T1", .todo, .done, exTask1⟩ =
      ⟨[exTask1], [], [], [], [{ exTask2 with status := .done }], []⟩ := by decide

/-- C6: for every valid move applied by handleDragEnd, the moved record
differs from the original only in its status field (id, title, description,
storyPoints, assignee, epic, priority, isBug, createdAt, updatedAt are all
identical), the destination column is extended by exactly that record, the
source column loses exactly the moved task with all other entries kept in
order, and every other partition is untouched. -/
theorem C6_frame_property (tasks : BoardData) (aid overStr : String) (src : ColumnId)
    (col : Column) (task : BoardTask) (l1 l2 : List BoardTask)
    (hsrc : findColumnForTask tasks aid = some src)
    (hcol : columns.find? (fun c => c.id.str == overStr) = some col)
    (hne : (src.str == overStr) = false)
    (hdecomp : getCol tasks src = l1 ++ task :: l2)
    (hid : task.id = aid)
    (hfree1 : ∀ t ∈ l1, t.id ≠ aid) (hfree2 : ∀ t ∈ l2, t.id ≠ aid) :
    let o := handleDragEndOptimistic tasks ⟨aid, some overStr⟩
    let moved : BoardTask := { task with status := col.id }
    moved.id = task.id ∧ moved.title = task.title ∧
    moved.description = task.description ∧ moved.storyPoints = task.storyPoints ∧
    moved.assignee = task.assignee ∧ moved.epic = task.epic ∧
    moved.priority = task.priority ∧ moved.isBug = task.isBug ∧
    moved.createdAt = task.createdAt ∧ moved.updatedAt = task.updatedAt ∧
    getCol o.tasks col.id = getCol tasks col.id ++ [moved] ∧
    getCol o.tasks src = l1 ++ l2 ∧
    ∀ c, c ≠ src → c ≠ col.id → getCol o.tasks c = getCol tasks c := by
  intro o moved
  have htask : (getCol tasks src).find? (fun t => t.id == aid) = some task := by
    rw [hdecomp]; exact find?_decomp aid task l1 l2 hid hfree1
  have ho : o = ⟨applyMove tasks aid src col.id task, some ⟨aid, src, col.id, task⟩,
      [Notice.success ("Moved task to " ++ col.label)]⟩ :=
    handleDragEndOptimistic_valid tasks aid overStr src col task hsrc hcol hne htask
  have hsd : src ≠ col.id := src_ne_dst overStr src col hcol hne
  refine ⟨rfl, rfl, rfl, rfl, rfl, rfl, rfl, rfl, rfl, rfl, ?_, ?_, ?_⟩
  · rw [ho]
    show getCol (applyMove tasks aid src col.id task) col.id = _
    unfold applyMove
    rw [getCol_setCol_same]
  · rw [ho]
    show getCol (applyMove tasks aid src col.id task) src = _
    unfold applyMove
    rw [getCol_setCol_ne _ _ _ _ hsd, getCol_setCol_same, hdecomp]
    exact filter_decomp aid task l1 l2 hid hfree1 hfree2
  · intro c hcs hcd
    rw [ho]
    show getCol (applyMove tasks aid src col.id task) c = _
    unfold applyMove
    rw [getCol_setCol_ne _ _ _ _ hcd, getCol_setCol_ne _ _ _ _ hcs]

/-- C6 witness: moving exTask1 out of todo = [exTask1, exTask2] to done. -/
theorem C6_frame_property_witness :
    (let o := handleDragEndOptimistic exBoard2 ⟨"T1", some "done"⟩
     let moved : BoardTask := { exTask1 with status := ColumnId.done }
     moved.id = exTask1.id ∧ moved.title = exTask1.title ∧
     moved.description = exTask1.description ∧ moved.storyPoints = exTask1.storyPoints ∧
     moved.assignee = exTask1.assignee ∧ moved.epic = exTask1.epic ∧
     moved.priority = exTask1.priority ∧ moved.isBug = exTask1.isBug ∧
     moved.createdAt = exTask1.createdAt ∧ moved.updatedAt = exTask1.updatedAt ∧
     getCol o.tasks ColumnId.done = getCol exBoard2 ColumnId.done ++ [moved] ∧
     getCol o.tasks ColumnId.todo = [] ++ [exTask2] ∧
     ∀ c, c ≠ ColumnId.todo → c ≠ ColumnId.done → getCol o.tasks c = getCol exBoard2 c) :=
  C6_frame_property exBoard2 "T1" "done" .todo ⟨.done, "Done"⟩ exTask1 [] [exTask2]
    (by decide) (by decide) (by decide) (by decide) (by decide) (by decide) (by decide)

/-- C7: seeding wholly replaces the mirror, so seeding the same collection
twice leaves the same mirror as seeding it once. -/
theorem C7_seed_idempotent (c m : BoardData) : seed c (seed c m) = seed c m := rfl

/-- C8: a drag-end event whose target string matches none of the five
droppable column ids leaves the mirror unchanged and issues no dispatch,
whatever a dispatch would have resolved to; and every dispatch the handler
ever issues targets a column drawn from the columns array, so its
destination is never the blocked partition. -/
theorem C8_closed_destination_set :
    (∀ (tasks : BoardData) (aid overStr : String),
        columns.find? (fun c => c.id.str == overStr) = none →
        handleDragEndOptimistic tasks ⟨aid, some overStr⟩ = ⟨tasks, none, []⟩ ∧
        ∀ result, handleDragEnd tasks ⟨aid, some overStr⟩ result = (tasks, [])) ∧
    (∀ (tasks : BoardData) (ev : DragEndEvent) (p : PendingMutation),
        (handleDragEndOptimistic tasks ev).dispatch = some p →
        p.overColumn ≠ ColumnId.blocked) := by
  constructor
  · intro tasks aid overStr h
    have hmain := handleDragEndOptimistic_badTarget tasks aid overStr h
    refine ⟨hmain, fun result => ?_⟩
    unfold handleDragEnd
    rw [hmain]
  · intro tasks ev p hp
    obtain ⟨aid, ov⟩ := ev
    cases ov with
    | none => simp [handleDragEndOptimistic] at hp
    | some overStr =>
      unfold handleDragEndOptimistic at hp
      simp only at hp
      cases hf : findColumnForTask tasks aid with
      | none => rw [hf] at hp; simp at hp
      | some src =>
        cases hc : columns.find? (fun c => c.id.str == overStr) with
        | none => rw [hf, hc] at hp; simp at hp
        | some col =>
          rw [hf, hc] at hp
          have hmem : col ∈ columns := List.mem_of_find?_eq_some hc
          by_cases hif : (src.str == overStr) = true
          · simp [hif] at hp
          · simp [hif] at hp
            cases hfd : (getCol tasks src).find? (fun t => t.id == aid) with
            | none => rw [hfd] at hp; simp at hp
            | some task =>
              rw [hfd] at hp
              simp at hp
              have : p.overColumn = col.id := by rw [← hp]
              rw [this]
              fin_cases hmem <;> simp

/-- C8 witness: dropping onto the blocked column is refused on a concrete
board, and a concrete issued dispatch does not target blocked. -/
theorem C8_closed_destination_set_witness :
    (handleDragEndOptimistic exBoard1 ⟨"T1", some "blocked"⟩ = ⟨exBoard1, none, []⟩ ∧
      ∀ result, handleDragEnd exBoard1 ⟨"T1", some "blocked"⟩ result = (exBoard1, [])) ∧
    (⟨"T1", ColumnId.todo, ColumnId.done, exTask1⟩ : PendingMutation).overColumn ≠
      ColumnId.blocked :=
  ⟨C8_closed_destination_set.1 exBoard1 "T1" "blocked" (by decide),
   C8_closed_destination_set.2 exBoard1 ⟨"T1", some "done"⟩
     ⟨"T1", ColumnId.todo, ColumnId.done, exTask1⟩ (by decide)⟩

/-- C9: when the dragged id occurs exactly once on the board (in the source
column), both the optimistic apply and the full apply-then-rollback path of
handleDragEnd preserve the multiset of task ids over all six partitions and
the total story-point sum. -/
theorem C9_conservation (tasks : BoardData) (aid overStr : String) (src : ColumnId)
    (col : Column) (task : BoardTask) (l1 l2 : List BoardTask)
    (hsrc : findColumnForTask tasks aid = some src)
    (hcol : columns.find? (fun c => c.id.str == overStr) = some col)
    (hne : (src.str == overStr) = false)
    (hdecomp : getCol tasks src = l1 ++ task :: l2)
    (hid : task.id = aid)
    (hfree1 : ∀ t ∈ l1, t.id ≠ aid) (hfree2 : ∀ t ∈ l2, t.id ≠ aid)
    (hfreeDst : ∀ t ∈ getCol tasks col.id, t.id ≠ aid) :
    (idBag (handleDragEndOptimistic tasks ⟨aid, some overStr⟩).tasks = idBag tasks ∧
     pointsSum (handleDragEndOptimistic tasks ⟨aid, some overStr⟩).tasks = pointsSum tasks) ∧
    (idBag (handleDragEnd tasks ⟨aid, some overStr⟩ false).1 = idBag tasks ∧
     pointsSum (handleDragEnd tasks ⟨aid, some overStr⟩ false).1 = pointsSum tasks) := by
  have htask : (getCol tasks src).find? (fun t => t.id == aid) = some task := by
    rw [hdecomp]; exact find?_decomp aid task l1 l2 hid hfree1
  have ho := handleDragEndOptimistic_valid tasks aid overStr src col task hsrc hcol hne htask
  have hfail := handleDragEnd_failure tasks aid overStr src col task hsrc hcol hne htask
  have hsd : src ≠ col.id := src_ne_dst overStr src col hcol hne
  have hfil : (getCol tasks src).filter (fun t => !(t.id == aid)) = l1 ++ l2 := by
    rw [hdecomp]; exact filter_decomp aid task l1 l2 hid hfree1 hfree2
  have happ_bag : idBag (applyMove tasks aid src col.id task) = idBag tasks := by
    unfold applyMove
    rw [hfil]
    exact conservation_bag tasks src col.id hsd l1 l2 task _ hdecomp rfl
  have happ_pts : pointsSum (applyMove tasks aid src col.id task) = pointsSum tasks := by
    unfold applyMove
    rw [hfil]
    exact conservation_pts tasks src col.id hsd l1 l2 task _ hdecomp rfl
  have hS'dst : getCol (applyMove tasks aid src col.id task) col.id
      = getCol tasks col.id ++ { task with status := col.id } :: [] := by
    unfold applyMove; rw [getCol_setCol_same]
  have hDfil : (getCol (applyMove tasks aid src col.id task) col.id).filter
      (fun t => !(t.id == aid)) = getCol tasks col.id ++ [] := by
    rw [hS'dst, List.filter_append]
    have h1 : (getCol tasks col.id).filter (fun t => !(t.id == aid)) = getCol tasks col.id :=
      List.filter_eq_self.mpr (fun t ht => by simpa using hfreeDst t ht)
    rw [h1]
    simp [hid]
  have hrev_bag : idBag (revertMove (applyMove tasks aid src col.id task)
      ⟨aid, src, col.id, task⟩) = idBag (applyMove tasks aid src col.id task) := by
    show idBag (setCol (setCol _ col.id _) src _) = _
    rw [hDfil]
    exact conservation_bag (applyMove tasks aid src col.id task) col.id src
      (Ne.symm hsd) (getCol tasks col.id) [] { task with status := col.id } task hS'dst rfl
  have hrev_pts : pointsSum (revertMove (applyMove tasks aid src col.id task)
      ⟨aid, src, col.id, task⟩) = pointsSum (applyMove tasks aid src col.id task) := by
    show pointsSum (setCol (setCol _ col.id _) src _) = _
    rw [hDfil]
    exact conservation_pts (applyMove tasks aid src col.id task) col.id src
      (Ne.symm hsd) (getCol tasks col.id) [] { task with status := col.id } task hS'dst rfl
  refine ⟨⟨?_, ?_⟩, ?_, ?_⟩
  · rw [ho]; exact happ_bag
  · rw [ho]; exact happ_pts
  · rw [hfail]
    show idBag (revertMove _ _) = _
    rw [hrev_bag]; exact happ_bag
  · rw [hfail]
    show pointsSum (revertMove _ _) = _
    rw [hrev_pts]; exact happ_pts

/-- C9 witness: the two-task board with exTask1 moved from todo to done. -/
theorem C9_conservation_witness :
    (idBag (handleDragEndOptimistic exBoard2 ⟨"T1", some "done"⟩).tasks = idBag exBoard2 ∧
     pointsSum (handleDragEndOptimistic exBoard2 ⟨"T1", some "done"⟩).tasks = pointsSum exBoard2) ∧
    (idBag (handleDragEnd exBoard2 ⟨"T1", some "done"⟩ false).1 = idBag exBoard2 ∧
     pointsSum (handleDragEnd exBoard2 ⟨"T1", some "done"⟩ false).1 = pointsSum exBoard2) :=
  C9_conservation exBoard2 "T1" "done" .todo ⟨.done, "Done"⟩ exTask1 [] [exTask2]
    (by decide) (by decide) (by decide) (by decide) (by decide) (by decide) (by decide) (by decide)

/-- C10 counterexample: with maxToasts = 0 the slice(-0) call keeps the
entire array, so one addToast already exceeds the claimed bound. -/
theorem C10_counterexample : ¬ ((addToast 0 [] exToast).length ≤ 0) := by decide

/-- C10 (amended): for every maxToasts of at least one (the default 5
qualifies) and every sequence of addToast and removeToast calls from the
initial empty list, the toast list never exceeds maxToasts entries; and
each addToast keeps exactly the most recent min (maxToasts, length + 1)
toasts, a suffix of the appended list, evicting the oldest. -/
theorem C10_bounded_queue_amended (m : Nat) (hm : 1 ≤ m) (ops : List ToastOp)
    (s : List ToastItem) (t : ToastItem) :
    (runToasts m ops).length ≤ m ∧
    addToast m s t = (s ++ [t]).drop ((s ++ [t]).length - m) ∧
    (addToast m s t).length = min m (s.length + 1) ∧
    List.IsSuffix (addToast m s t) (s ++ [t]) := by
  refine ⟨runToasts_aux m hm ops [] (by simp), ?_, ?_, ?_⟩
  · unfold addToast jsSliceNeg
    rw [if_neg (by omega)]
  · unfold addToast jsSliceNeg
    rw [if_neg (by omega)]
    simp [List.length_drop]
    omega
  · unfold addToast jsSliceNeg
    rw [if_neg (by omega)]
    exact List.drop_suffix _ _

/-- C10 witness: the default bound 5 with a single addToast. -/
theorem C10_bounded_queue_amended_witness :
    (runToasts 5 [ToastOp.add exToast]).length ≤ 5 ∧
    addToast 5 [] exToast = ([] ++ [exToast]).drop (([] ++ [exToast]).length - 5) ∧
    (addToast 5 [] exToast).length = min 5 (List.length ([] : List ToastItem) + 1) ∧
    List.IsSuffix (addToast 5 [] exToast) ([] ++ [exToast]) :=
  C10_bounded_queue_amended 5 (by decide) [ToastOp.add exToast] [] exToast
